import Mathlib

/-!
Verification of the alert-assertion evaluator of the OpenShift origin
Prometheus e2e test (`test/extended/prometheus/prometheus.go`) and of the
generated `AppliedClusterResourceQuota` namespace lister, as a shallow
embedding in Lean 4.

Label sets (Go `map[string]string` and protobuf label lists) are embedded as
association lists of `String × String`; Go's map read with its zero-value
default becomes `goLookup`.  The deduplicating `sets.String` accumulators
become `Finset String`; `sets.String.List()` (sorted slice) becomes
`Finset.sort`.
-/

namespace Prom

/-- Association-list lookup: the first binding of key `k`, if any
(embeds a Go map read with `ok` flag: `v, ok := m[k]`). -/
def lookupLabel (m : List (String × String)) (k : String) : Option String :=
  (m.find? (fun kv => kv.1 == k)).map (·.2)

/-- Go map read without the `ok` flag: a missing key yields the zero value
`""` (embeds `m[k]` in Go). -/
def goLookup (m : List (String × String)) (k : String) : String :=
  (lookupLabel m k).getD ""

/-- One active target from the `/api/v1/targets` response
(embeds the anonymous struct in `prometheusTargets.Data.ActiveTargets`). -/
structure ActiveTarget where
  Labels : List (String × String)
  Health : String
  ScrapeUrl : String
  deriving Repr, DecidableEq

/-- The label part of `prometheusTargets.Expect`: the inner loop
`for k, v := range l { if target.Labels[k] != v { match = false; break } }`.
Order of iteration does not matter for the result, so the `range` over the
selector map is embedded as `List.all` over its association list. -/
def expectLabelsMatch (l : List (String × String)) (targetLabels : List (String × String)) : Bool :=
  l.all (fun kv => goLookup targetLabels kv.1 == kv.2)

/-- The matching predicate the spec describes: for every key in the
selector, the series carries that key with an identical value. -/
def specSelectorMatches (l : List (String × String)) (seriesLabels : List (String × String)) : Bool :=
  l.all (fun kv => lookupLabel seriesLabels kv.1 == some kv.2)

/-- The `matched` accumulator of `findMetricsWithLabels`: walk the metric's
label pairs; a selector key with the wrong value executes `break`, returning
the names matched so far; a selector key with the right value is inserted
into `matched`; non-selector labels are skipped. -/
def matchedNames (sel : List (String × String)) :
    List (String × String) → Finset String → Finset String
  | [], acc => acc
  | (n, v) :: rest, acc =>
      match lookupLabel sel n with
      | some expect =>
          if expect == v then matchedNames sel rest (insert n acc) else acc
      | none => matchedNames sel rest acc

/-- The per-metric test of `findMetricsWithLabels`:
`len(matched) != len(labels)` skips the metric (the selector is a Go map,
so `len(labels)` is its number of keys, here the association-list length
for a duplicate-free selector). -/
def metricMatches (sel : List (String × String)) (metricLabels : List (String × String)) : Bool :=
  (matchedNames sel metricLabels ∅).card == sel.length

/-- `findMetricsWithLabels` on the label lists of a family's metrics
(a `nil` family yields the empty result; the field access is total here). -/
def findMetricsWithLabels (metrics : List (List (String × String)))
    (sel : List (String × String)) : List (List (String × String)) :=
  metrics.filter (metricMatches sel)

/-- The selector keys that occur in a label list with exactly the value the
selector expects (proof device for analysing `matchedNames`). -/
def goodKeys (sel ls : List (String × String)) : Finset String :=
  ((ls.filter (fun p => lookupLabel sel p.1 == some p.2)).map Prod.fst).toFinset

/-! ### The alert-assertion evaluator (the `[sig-instrumentation][Late] Alerts` test body) -/

/-- One result series of a Prometheus instant query: a label set (`Metric`)
and a sample value (printed with `%s`, so kept as a string). -/
structure Series where
  Metric : List (String × String)
  Value : String
  deriving Repr, DecidableEq

/-- A label-selector paired with explanatory text
(embeds `helper.MetricCondition`). -/
structure MetricCondition where
  Selector : List (String × String)
  Text : String
  deriving Repr, DecidableEq

/-- Modelled from the spec: `helper.MetricConditions.Matches` is not under
src/ (only its callers are).  Per the spec, a series matches a condition if,
for every key in the condition's selector, the series carries that key with
an identical value, and the first matching condition in list order wins. -/
def MetricConditions.Matches (conds : List MetricCondition) (s : Series) :
    Option MetricCondition :=
  conds.find? (fun c => specSelectorMatches c.Selector s.Metric)

/-- Modelled from the spec: `helper.StripLabels` is not under src/; it drops
the named label keys from a label set before display. -/
def StripLabels (m : List (String × String)) (keys : List String) : List (String × String) :=
  m.filter (fun kv => !(keys.contains kv.1))

/-- Modelled from the spec: `helper.LabelsAsSelector` is not under src/; it
renders a label set in selector syntax for display. -/
def LabelsAsSelector (m : List (String × String)) : String :=
  "\x7b" ++ String.intercalate ", " (m.map (fun kv => kv.1 ++ "=\"" ++ kv.2 ++ "\"")) ++ "\x7d"

/-- The four deduplicating `sets.NewString()` accumulators of the Alerts
test (lines 82-85): known, unexpected, flaky, and informational debug. -/
structure AlertState where
  knownViolations : Finset String
  unexpectedViolations : Finset String
  unexpectedViolationsAsFlakes : Finset String
  debug : Finset String
  deriving DecidableEq

/-- The state right after `sets.NewString()`: all four sets empty. -/
def initState : AlertState :=
  ⟨∅, ∅, ∅, ∅⟩

/-! #### Watchdog continuity check (lines 90-99) -/

/-- Modelled from the spec: the PromQL `changes(...)` aggregation executed by
the Prometheus backend is not under src/.  Per the spec's continuity check,
it counts transitions in the firing/absent indicator sequence over the
window (with absence represented as a zero sample via `absent(...)*0`). -/
def transitions : List Nat → Nat
  | [] => 0
  | [_] => 0
  | a :: b :: rest => (if a ≠ b then 1 else 0) + transitions (b :: rest)

/-- The result set of the `watchdogQuery` (line 94): the query ends in
`> 1`, so it returns a (single aggregated) series exactly when the
transition count exceeds one, and is empty otherwise. -/
def watchdogQueryResult (indicator : List Nat) : List Series :=
  if transitions indicator > 1 then [⟨[], ""⟩] else []

/-- The violation text inserted on line 98. -/
def watchdogMsg : String :=
  "Watchdog alert had missing intervals during the run, which may be a sign of a Prometheus outage in violation of the prometheus query SLO of 100% uptime during normal execution"

/-- Lines 97-99: `if len(result.Data.Result) > 0` insert `watchdogMsg` into
the unexpected set. -/
def evalWatchdog (indicator : List Nat) (st : AlertState) : AlertState :=
  if (watchdogQueryResult indicator).length > 0 then
    { st with unexpectedViolations := insert watchdogMsg st.unexpectedViolations }
  else st

/-! #### Firing-alert classification loop (lines 109-117) -/

/-- The violation description built on lines 110-111. -/
def firingViolation (s : Series) : String :=
  "alert " ++ goLookup s.Metric "alertname" ++ " fired for " ++ s.Value ++
    " seconds with labels: " ++
    LabelsAsSelector (StripLabels s.Metric ["alertname", "alertstate", "prometheus"])

/-- The body of the firing loop for one series (lines 110-116): a series
matching a known-bug condition goes to `knownViolations` with the bug text
appended; otherwise it goes to `unexpectedViolations`. -/
def stepFiring (firingAlertsWithBugs : List MetricCondition) (st : AlertState)
    (s : Series) : AlertState :=
  let violation := firingViolation s
  match MetricConditions.Matches firingAlertsWithBugs s with
  | some cause =>
      { st with knownViolations :=
          insert (violation ++ " (open bug: " ++ cause.Text ++ ")") st.knownViolations }
  | none =>
      { st with unexpectedViolations := insert violation st.unexpectedViolations }

/-- The whole firing loop (`for _, series := range result.Data.Result`). -/
def evalFiring (firingAlertsWithBugs : List MetricCondition) (series : List Series)
    (st : AlertState) : AlertState :=
  series.foldl (stepFiring firingAlertsWithBugs) st

/-! #### Pending-alert classification loop (lines 123-137) -/

/-- The violation description built on lines 124-125. -/
def pendingViolation (s : Series) : String :=
  "alert " ++ goLookup s.Metric "alertname" ++ " pending for " ++ s.Value ++
    " seconds with labels: " ++
    LabelsAsSelector (StripLabels s.Metric ["alertname", "alertstate", "prometheus"])

/-- The body of the pending loop for one series (lines 124-136): an
allow-listed series goes to the informational `debug` set (and `continue`
skips the rest); a known-bug series goes to `knownViolations`; everything
else goes to `unexpectedViolationsAsFlakes`. -/
def stepPending (allowedPendingAlerts pendingAlertsWithBugs : List MetricCondition)
    (st : AlertState) (s : Series) : AlertState :=
  let violation := pendingViolation s
  match MetricConditions.Matches allowedPendingAlerts s with
  | some cause =>
      { st with debug := insert (violation ++ " (allowed: " ++ cause.Text ++ ")") st.debug }
  | none =>
      match MetricConditions.Matches pendingAlertsWithBugs s with
      | some cause =>
          { st with knownViolations :=
              insert (violation ++ " (open bug: " ++ cause.Text ++ ")") st.knownViolations }
      | none =>
          { st with unexpectedViolationsAsFlakes :=
              insert violation st.unexpectedViolationsAsFlakes }

/-- The whole pending loop. -/
def evalPending (allowedPendingAlerts pendingAlertsWithBugs : List MetricCondition)
    (series : List Series) (st : AlertState) : AlertState :=
  series.foldl (stepPending allowedPendingAlerts pendingAlertsWithBugs) st

/-! #### Concrete condition lists of the test (lines 67-80) -/

/-- Line 67-72: the firing-alert known-bug list. -/
def firingAlertsWithBugs : List MetricCondition :=
  [⟨[("alertname", "AggregatedAPIDown"), ("name", "v1alpha1.wardle.example.com")],
    "https://bugzilla.redhat.com/show_bug.cgi?id=1933144"⟩]

/-- Line 74: the pending-alert known-bug list is empty. -/
def pendingAlertsWithBugs : List MetricCondition := []

/-- Lines 75-80: the pending-alert allow-list. -/
def allowedPendingAlerts : List MetricCondition :=
  [⟨[("alertname", "HighOverallControlPlaneCPU")],
    "high CPU utilization during e2e runs is normal"⟩]

/-! #### Verdict (lines 139-148) -/

/-- The outcome of the test body after all queries are evaluated:
`framework.Failf` (hard failure), `testresult.Flakef` (non-blocking flake
signal), or a pass. -/
inductive Verdict where
  | fail (msg : String)
  | flake (msg : String)
  | pass
  deriving Repr, DecidableEq

/-- `sets.String.List()`: the sorted slice of the set's members. -/
def setList (s : Finset String) : List String :=
  s.sort (· ≤ ·)

/-- Lines 142-148: `Failf` when the unexpected set is non-empty (aborting
the test), else `Flakef` when the union of known, unexpected and flaky sets
is non-empty, else the pass log line. -/
def verdict (st : AlertState) : Verdict :=
  if st.unexpectedViolations ≠ ∅ then
    .fail ("Unexpected alerts fired or pending after the test run:\n\n" ++
      String.intercalate "\n" (setList st.unexpectedViolations))
  else if (∅ ∪ st.knownViolations ∪ st.unexpectedViolations ∪ st.unexpectedViolationsAsFlakes) ≠ (∅ : Finset String) then
    .flake ("Unexpected alert behavior during test:\n\n" ++
      String.intercalate "\n"
        (setList (∅ ∪ st.knownViolations ∪ st.unexpectedViolations ∪ st.unexpectedViolationsAsFlakes)))
  else .pass

/-! #### The full evaluation with transport failures (lines 95-96, 107-108, 121-122)

Each `helper.RunQuery` may fail (network error or JSON decode error); the
`o.Expect(err).NotTo(o.HaveOccurred())` right after it aborts the test at
that point.  The abort carries the classification state reached so far. -/

/-- Outcome of running the three queries in order: either an abort at a
failed query (with the classification state at that moment) or the
completed state. -/
inductive EvalOutcome where
  | aborted (err : String) (st : AlertState)
  | completed (st : AlertState)
  deriving DecidableEq

/-- The three query evaluations in program order; a query result is either
an error (transport/decode failure) or a list of result series (the
watchdog query is driven by its indicator sequence). -/
def evalAlertsTest (watchdogRes : Except String (List Nat))
    (firingRes pendingRes : Except String (List Series)) : EvalOutcome :=
  match watchdogRes with
  | .error e => .aborted e initState
  | .ok indicator =>
    let st1 := evalWatchdog indicator initState
    match firingRes with
    | .error e => .aborted e st1
    | .ok firingSeries =>
      let st2 := evalFiring firingAlertsWithBugs firingSeries st1
      match pendingRes with
      | .error e => .aborted e st2
      | .ok pendingSeries =>
        .completed (evalPending allowedPendingAlerts pendingAlertsWithBugs pendingSeries st2)

end Prom

/-! ### The generated `AppliedClusterResourceQuota` namespace lister
(`pkg/quota/generated/listers/quota/v1/appliedclusterresourcequota.go`) -/

namespace Lister

/-- The `cache.Indexer` collaborator as its `GetByKey` contract: a backing
store mapping keys to stored objects, plus a possible per-key lookup error
(`GetByKey` returns `(item, exists, err)`; on an error or a missing key the
item is nil and `exists` is false). -/
structure Indexer (α : Type) where
  store : String → Option α
  keyErr : String → Option String

/-- `GetByKey` of the indexer: `(obj, exists, err)`. -/
def Indexer.GetByKey {α : Type} (ix : Indexer α) (key : String) :
    Option α × Bool × Option String :=
  match ix.keyErr key with
  | some e => (none, false, some e)
  | none =>
    match ix.store key with
    | some o => (some o, true, none)
    | none => (none, false, none)

/-- The two error shapes `Get` can return: the indexer's own lookup error,
or `errors.NewNotFound(v1.Resource("appliedclusterresourcequota"), name)`. -/
inductive GetError where
  | lookup (e : String)
  | notFound (name : String)
  deriving Repr, DecidableEq

/-- `appliedClusterResourceQuotaNamespaceLister.Get` (lines 69-78): look up
`namespace + "/" + name`; forward the indexer error; return NotFound when
the key is absent; otherwise return the stored object. -/
def nsListerGet {α : Type} (ix : Indexer α) (ns name : String) :
    Option α × Option GetError :=
  let r := ix.GetByKey (ns ++ "/" ++ name)
  match r.2.2 with
  | some e => (none, some (.lookup e))
  | none =>
    if r.2.1 = false then (none, some (.notFound name))
    else (r.1, none)

end Lister

/-! Quick sanity examples (concrete evaluations used while developing). -/

example : Prom.expectLabelsMatch [("job", "api")] [("job", "api"), ("pod", "x")] = true := by
  decide
example : Prom.expectLabelsMatch [("a", "")] [] = true := by decide
example : Prom.specSelectorMatches [("a", "")] [] = false := by decide
example : Prom.metricMatches [("a", "")] [] = false := by decide
example : Prom.metricMatches [("a", "1")] [("b", "2"), ("a", "1")] = true := by decide
example : Prom.metricMatches [("a", "1")] [("a", "2")] = false := by decide

/-! ### Supporting lemmas on label lookup and `matchedNames` -/

namespace Prom

theorem mem_of_lookupLabel {m : List (String × String)} {k v : String}
    (h : lookupLabel m k = some v) : (k, v) ∈ m := by
  unfold lookupLabel at h
  cases hf : m.find? (fun kv => kv.1 == k) with
  | none => simp [hf] at h
  | some p =>
    simp [hf] at h
    have hp := List.find?_some hf
    have hm := List.mem_of_find?_eq_some hf
    have : p.1 = k := by simpa using hp
    have : p = (k, v) := by
      cases p
      simp_all
    rw [← this]
    exact hm

theorem key_mem_of_lookupLabel {m : List (String × String)} {k v : String}
    (h : lookupLabel m k = some v) : k ∈ m.map Prod.fst := by
  exact List.mem_map_of_mem Prod.fst (mem_of_lookupLabel h)

theorem lookupLabel_of_mem_nodup {m : List (String × String)} {k v : String}
    (hnd : (m.map Prod.fst).Nodup) (h : (k, v) ∈ m) : lookupLabel m k = some v := by
  induction m with
  | nil => simp at h
  | cons p rest ih =>
    simp only [List.map_cons, List.nodup_cons] at hnd
    rcases List.mem_cons.mp h with heq | hmem
    · subst heq
      simp [lookupLabel, List.find?_cons_of_pos]
    · by_cases hk : p.1 = k
      · exfalso
        exact hnd.1 (hk ▸ List.mem_map_of_mem Prod.fst hmem)
      · have hrest : lookupLabel rest k = some v := ih hnd.2 hmem
        have hb : (p.1 == k) = false := by simpa using hk
        unfold lookupLabel at hrest ⊢
        rw [List.find?_cons]
        simpa [hb] using hrest

theorem goodKeys_nil (sel : List (String × String)) : goodKeys sel [] = ∅ := by
  simp [goodKeys]

theorem goodKeys_cons_good {sel rest : List (String × String)} {n v : String}
    (h : lookupLabel sel n = some v) :
    goodKeys sel ((n, v) :: rest) = insert n (goodKeys sel rest) := by
  simp [goodKeys, List.filter_cons, h]

theorem goodKeys_cons_bad {sel rest : List (String × String)} {n v : String}
    (h : ¬ lookupLabel sel n = some v) :
    goodKeys sel ((n, v) :: rest) = goodKeys sel rest := by
  have : (lookupLabel sel n == some v) = false := by
    simpa using h
  simp [goodKeys, List.filter_cons, this]

theorem goodKeys_subset_selKeys (sel ls : List (String × String)) :
    goodKeys sel ls ⊆ (sel.map Prod.fst).toFinset := by
  intro k hk
  simp only [goodKeys, List.mem_toFinset, List.mem_map] at hk
  rcases hk with ⟨p, hp, rfl⟩
  have := List.of_mem_filter hp
  have hl : lookupLabel sel p.1 = some p.2 := by simpa using this
  simp only [List.mem_toFinset]
  exact key_mem_of_lookupLabel hl

theorem matchedNames_subset (sel : List (String × String)) :
    ∀ (ls : List (String × String)) (acc : Finset String),
      matchedNames sel ls acc ⊆ acc ∪ goodKeys sel ls := by
  intro ls
  induction ls with
  | nil => intro acc; simp [matchedNames, goodKeys_nil]
  | cons p rest ih =>
    intro acc
    obtain ⟨n, v⟩ := p
    cases hl : lookupLabel sel n with
    | none =>
      have hbad : ¬ lookupLabel sel n = some v := by simp [hl]
      rw [goodKeys_cons_bad hbad]
      simpa [matchedNames, hl] using ih acc
    | some e =>
      by_cases hev : e = v
      · rw [hev] at hl
        rw [goodKeys_cons_good hl]
        have hstep : matchedNames sel ((n, v) :: rest) acc
            = matchedNames sel rest (insert n acc) := by
          simp [matchedNames, hl]
        rw [hstep]
        calc matchedNames sel rest (insert n acc)
            ⊆ insert n acc ∪ goodKeys sel rest := ih (insert n acc)
          _ = acc ∪ insert n (goodKeys sel rest) := by
              rw [Finset.insert_union, Finset.union_insert]
      · have hbad : ¬ lookupLabel sel n = some v := by
          simp [hl]; exact hev
        rw [goodKeys_cons_bad hbad]
        have hstep : matchedNames sel ((n, v) :: rest) acc = acc := by
          have : (e == v) = false := by simpa using hev
          simp [matchedNames, hl, this]
        rw [hstep]
        exact Finset.subset_union_left

theorem matchedNames_no_break (sel : List (String × String)) :
    ∀ (ls : List (String × String)),
      (∀ p ∈ ls, ∀ e, lookupLabel sel p.1 = some e → e = p.2) →
      ∀ acc : Finset String, matchedNames sel ls acc = acc ∪ goodKeys sel ls := by
  intro ls
  induction ls with
  | nil => intro _ acc; simp [matchedNames, goodKeys_nil]
  | cons p rest ih =>
    intro h acc
    obtain ⟨n, v⟩ := p
    have hrest : ∀ p ∈ rest, ∀ e, lookupLabel sel p.1 = some e → e = p.2 :=
      fun p hp => h p (List.mem_cons_of_mem _ hp)
    cases hl : lookupLabel sel n with
    | none =>
      have hbad : ¬ lookupLabel sel n = some v := by simp [hl]
      rw [goodKeys_cons_bad hbad]
      simpa [matchedNames, hl] using ih hrest acc
    | some e =>
      have hev : e = v := h (n, v) (List.mem_cons_self _ _) e hl
      rw [hev] at hl
      rw [goodKeys_cons_good hl]
      have hstep : matchedNames sel ((n, v) :: rest) acc
          = matchedNames sel rest (insert n acc) := by
        simp [matchedNames, hl]
      rw [hstep, ih hrest (insert n acc), Finset.insert_union, Finset.union_insert]

end Prom

namespace Prom

theorem expectLabelsMatch_iff {sel ls : List (String × String)}
    (h : ∀ p ∈ sel, p.2 ≠ "") :
    expectLabelsMatch sel ls = true ↔ ∀ p ∈ sel, lookupLabel ls p.1 = some p.2 := by
  unfold expectLabelsMatch
  rw [List.all_eq_true]
  constructor
  · intro ha p hp
    have hb := ha p hp
    have hv := h p hp
    unfold goLookup at hb
    cases hl : lookupLabel ls p.1 with
    | none =>
      rw [hl] at hb
      simp at hb
      exact absurd hb.symm hv
    | some v =>
      rw [hl] at hb
      simp at hb
      rw [hb]
  · intro ha p hp
    have := ha p hp
    simp [goLookup, this]

theorem selKeys_card {sel : List (String × String)}
    (hsel : (sel.map Prod.fst).Nodup) :
    ((sel.map Prod.fst).toFinset).card = sel.length := by
  rw [List.toFinset_card_of_nodup hsel, List.length_map]

theorem goodKeys_eq_selKeys {sel ls : List (String × String)}
    (hsel : (sel.map Prod.fst).Nodup)
    (h : ∀ p ∈ sel, lookupLabel ls p.1 = some p.2) :
    goodKeys sel ls = (sel.map Prod.fst).toFinset := by
  apply Finset.Subset.antisymm (goodKeys_subset_selKeys sel ls)
  intro k hk
  simp only [List.mem_toFinset, List.mem_map] at hk
  rcases hk with ⟨q, hq, rfl⟩
  have hsk : lookupLabel sel q.1 = some q.2 := by
    obtain ⟨a, b⟩ := q
    exact lookupLabel_of_mem_nodup hsel hq
  have hls : (q.1, q.2) ∈ ls := mem_of_lookupLabel (h q hq)
  simp only [goodKeys, List.mem_toFinset, List.mem_map]
  refine ⟨(q.1, q.2), ?_, rfl⟩
  apply List.mem_filter_of_mem hls
  simp [hsk]

theorem metricMatches_iff {sel ls : List (String × String)}
    (hsel : (sel.map Prod.fst).Nodup) (hls : (ls.map Prod.fst).Nodup) :
    metricMatches sel ls = true ↔ ∀ p ∈ sel, lookupLabel ls p.1 = some p.2 := by
  unfold metricMatches
  rw [beq_iff_eq]
  constructor
  · intro hcard
    have hsub1 : matchedNames sel ls ∅ ⊆ goodKeys sel ls := by
      have := matchedNames_subset sel ls ∅
      rwa [Finset.empty_union] at this
    have hsub : matchedNames sel ls ∅ ⊆ (sel.map Prod.fst).toFinset :=
      hsub1.trans (goodKeys_subset_selKeys sel ls)
    have heq : matchedNames sel ls ∅ = (sel.map Prod.fst).toFinset := by
      apply Finset.eq_of_subset_of_card_le hsub
      rw [selKeys_card hsel, hcard]
    have hGeq : goodKeys sel ls = (sel.map Prod.fst).toFinset := by
      apply Finset.Subset.antisymm (goodKeys_subset_selKeys sel ls)
      rw [← heq]
      exact hsub1
    intro p hp
    obtain ⟨k, e⟩ := p
    have hkF : k ∈ (sel.map Prod.fst).toFinset :=
      List.mem_toFinset.mpr (List.mem_map_of_mem Prod.fst hp)
    have hkG : k ∈ goodKeys sel ls := by rw [hGeq]; exact hkF
    simp only [goodKeys, List.mem_toFinset, List.mem_map] at hkG
    rcases hkG with ⟨q, hqf, hq1⟩
    have hqls : q ∈ ls := List.mem_of_mem_filter hqf
    have hqsel : lookupLabel sel q.1 = some q.2 := by
      have := List.of_mem_filter hqf
      simpa using this
    have hselk : lookupLabel sel k = some e := lookupLabel_of_mem_nodup hsel hp
    rw [hq1] at hqsel
    have hq2 : q.2 = e := by
      rw [hselk] at hqsel
      exact (Option.some.inj hqsel).symm
    have : (k, e) ∈ ls := by
      have : q = (k, e) := by
        obtain ⟨a, b⟩ := q
        simp only [Prod.mk.injEq]
        exact ⟨hq1, hq2⟩
      rwa [this] at hqls
    exact lookupLabel_of_mem_nodup hls this
  · intro h
    have hnb : ∀ p ∈ ls, ∀ e, lookupLabel sel p.1 = some e → e = p.2 := by
      intro p hp e he
      have hmem : (p.1, e) ∈ sel := mem_of_lookupLabel he
      have h1 : lookupLabel ls p.1 = some e := h _ hmem
      have h2 : lookupLabel ls p.1 = some p.2 := by
        obtain ⟨a, b⟩ := p
        exact lookupLabel_of_mem_nodup hls hp
      rw [h1] at h2
      exact Option.some.inj h2
    rw [matchedNames_no_break sel ls hnb ∅, Finset.empty_union,
      goodKeys_eq_selKeys hsel h, selKeys_card hsel]

end Prom

/-! ### Supporting lemmas on the classification loops -/

namespace Prom

theorem matchedNames_nil_sel : ∀ (ls : List (String × String)) (acc : Finset String),
    matchedNames [] ls acc = acc := by
  intro ls
  induction ls with
  | nil => intro acc; simp [matchedNames]
  | cons p rest ih =>
    intro acc
    obtain ⟨n, v⟩ := p
    simp [matchedNames, lookupLabel, ih]

theorem stepFiring_known {fb : List MetricCondition} {s : Series} {c : MetricCondition}
    (h : MetricConditions.Matches fb s = some c) (st : AlertState) :
    stepFiring fb st s =
      { st with knownViolations :=
          insert (firingViolation s ++ " (open bug: " ++ c.Text ++ ")") st.knownViolations } := by
  simp [stepFiring, h]

theorem stepFiring_unexpected {fb : List MetricCondition} {s : Series}
    (h : MetricConditions.Matches fb s = none) (st : AlertState) :
    stepFiring fb st s =
      { st with unexpectedViolations := insert (firingViolation s) st.unexpectedViolations } := by
  simp [stepFiring, h]

theorem stepPending_debug {ab pb : List MetricCondition} {s : Series} {c : MetricCondition}
    (h : MetricConditions.Matches ab s = some c) (st : AlertState) :
    stepPending ab pb st s =
      { st with debug := insert (pendingViolation s ++ " (allowed: " ++ c.Text ++ ")") st.debug } := by
  simp [stepPending, h]

theorem stepPending_known {ab pb : List MetricCondition} {s : Series} {c : MetricCondition}
    (h1 : MetricConditions.Matches ab s = none)
    (h2 : MetricConditions.Matches pb s = some c) (st : AlertState) :
    stepPending ab pb st s =
      { st with knownViolations :=
          insert (pendingViolation s ++ " (open bug: " ++ c.Text ++ ")") st.knownViolations } := by
  simp [stepPending, h1, h2]

theorem stepPending_flake {ab pb : List MetricCondition} {s : Series}
    (h1 : MetricConditions.Matches ab s = none)
    (h2 : MetricConditions.Matches pb s = none) (st : AlertState) :
    stepPending ab pb st s =
      { st with unexpectedViolationsAsFlakes :=
          insert (pendingViolation s) st.unexpectedViolationsAsFlakes } := by
  simp [stepPending, h1, h2]

theorem stepFiring_unexpected_mono (fb : List MetricCondition) (st : AlertState) (s : Series) :
    st.unexpectedViolations ⊆ (stepFiring fb st s).unexpectedViolations := by
  cases h : MetricConditions.Matches fb s with
  | some c => rw [stepFiring_known h]
  | none =>
    rw [stepFiring_unexpected h]
    exact Finset.subset_insert _ _

theorem stepFiring_known_mono (fb : List MetricCondition) (st : AlertState) (s : Series) :
    st.knownViolations ⊆ (stepFiring fb st s).knownViolations := by
  cases h : MetricConditions.Matches fb s with
  | some c =>
    rw [stepFiring_known h]
    exact Finset.subset_insert _ _
  | none => rw [stepFiring_unexpected h]

theorem evalFiring_unexpected_mono (fb : List MetricCondition) :
    ∀ (series : List Series) (st : AlertState),
      st.unexpectedViolations ⊆ (evalFiring fb series st).unexpectedViolations := by
  intro series
  induction series with
  | nil => intro st; simp [evalFiring]
  | cons s rest ih =>
    intro st
    have h1 := stepFiring_unexpected_mono fb st s
    have h2 := ih (stepFiring fb st s)
    simp only [evalFiring, List.foldl_cons] at h2 ⊢
    exact h1.trans h2

theorem evalFiring_known_mono (fb : List MetricCondition) :
    ∀ (series : List Series) (st : AlertState),
      st.knownViolations ⊆ (evalFiring fb series st).knownViolations := by
  intro series
  induction series with
  | nil => intro st; simp [evalFiring]
  | cons s rest ih =>
    intro st
    have h1 := stepFiring_known_mono fb st s
    have h2 := ih (stepFiring fb st s)
    simp only [evalFiring, List.foldl_cons] at h2 ⊢
    exact h1.trans h2

theorem evalFiring_collects (fb : List MetricCondition) :
    ∀ (series : List Series) (st : AlertState) (s : Series), s ∈ series →
      (MetricConditions.Matches fb s = none →
        firingViolation s ∈ (evalFiring fb series st).unexpectedViolations)
      ∧ (∀ c, MetricConditions.Matches fb s = some c →
        firingViolation s ++ " (open bug: " ++ c.Text ++ ")"
          ∈ (evalFiring fb series st).knownViolations) := by
  intro series
  induction series with
  | nil => intro st s hs; simp at hs
  | cons hd rest ih =>
    intro st s hs
    rcases List.mem_cons.mp hs with heq | hmem
    · subst heq
      constructor
      · intro hm
        apply evalFiring_unexpected_mono fb rest (stepFiring fb st s)
        rw [stepFiring_unexpected hm]
        exact Finset.mem_insert_self _ _
      · intro c hm
        apply evalFiring_known_mono fb rest (stepFiring fb st s)
        rw [stepFiring_known hm]
        exact Finset.mem_insert_self _ _
    · exact ih (stepFiring fb st hd) s hmem

theorem evalPending_allowed_only_debug (ab pb : List MetricCondition) :
    ∀ (series : List Series) (st : AlertState),
      (∀ s ∈ series, (MetricConditions.Matches ab s).isSome) →
      (evalPending ab pb series st).knownViolations = st.knownViolations
      ∧ (evalPending ab pb series st).unexpectedViolations = st.unexpectedViolations
      ∧ (evalPending ab pb series st).unexpectedViolationsAsFlakes
          = st.unexpectedViolationsAsFlakes := by
  intro series
  induction series with
  | nil => intro st _; simp [evalPending]
  | cons s rest ih =>
    intro st h
    have hs : (MetricConditions.Matches ab s).isSome := h s (List.mem_cons_self _ _)
    rcases Option.isSome_iff_exists.mp hs with ⟨c, hc⟩
    have hrest : ∀ s' ∈ rest, (MetricConditions.Matches ab s').isSome :=
      fun s' hs' => h s' (List.mem_cons_of_mem _ hs')
    have hstep := @stepPending_debug ab pb s c hc st
    have := ih (stepPending ab pb st s) hrest
    simp only [evalPending, List.foldl_cons] at this ⊢
    rw [hstep] at this ⊢
    exact this

end Prom

/-! ### Claim theorems -/

/-- C1: Watchdog continuity check — for every test-window indicator sequence,
zero or one transitions leave the evaluator's state untouched (no violation
recorded), while two or more transitions record exactly one 'missing
intervals' violation in the unexpected set (and nothing anywhere else). -/
theorem c1_watchdog_continuity (indicator : List Nat) :
    (Prom.transitions indicator ≤ 1 →
      Prom.evalWatchdog indicator Prom.initState = Prom.initState)
    ∧ (2 ≤ Prom.transitions indicator →
      (Prom.evalWatchdog indicator Prom.initState).unexpectedViolations = {Prom.watchdogMsg}
      ∧ (Prom.evalWatchdog indicator Prom.initState).unexpectedViolations.card = 1
      ∧ (Prom.evalWatchdog indicator Prom.initState).knownViolations = ∅
      ∧ (Prom.evalWatchdog indicator Prom.initState).unexpectedViolationsAsFlakes = ∅
      ∧ (Prom.evalWatchdog indicator Prom.initState).debug = ∅) := by
  constructor
  · intro h
    have hle : ¬ Prom.transitions indicator > 1 := by omega
    simp [Prom.evalWatchdog, Prom.watchdogQueryResult, hle]
  · intro h
    have hgt : Prom.transitions indicator > 1 := by omega
    simp [Prom.evalWatchdog, Prom.watchdogQueryResult, hgt, Prom.initState]

/-- Witness for C1: a constant indicator (zero transitions) records nothing;
a firing-absent-firing indicator (two transitions) records the single
'missing intervals' violation. -/
theorem c1_watchdog_continuity_witness :
    Prom.evalWatchdog [1, 1, 1] Prom.initState = Prom.initState
    ∧ Prom.evalWatchdog [1, 0, 0] Prom.initState = Prom.initState
    ∧ (Prom.evalWatchdog [1, 0, 1] Prom.initState).unexpectedViolations = {Prom.watchdogMsg} :=
  ⟨(c1_watchdog_continuity [1, 1, 1]).1 (by decide),
   (c1_watchdog_continuity [1, 0, 0]).1 (by decide),
   ((c1_watchdog_continuity [1, 0, 1]).2 (by decide)).1⟩

/-- C2 counterexample: in `prometheusTargets.Expect` a selector entry with
the empty-string value matches a series that does not carry that key at all
(Go map lookup yields the zero value `""`), refuting the claimed
"if and only if the series carries that key with an identical value". -/
theorem c2_selector_matching_counterexample :
    Prom.expectLabelsMatch [("a", "")] [] = true
    ∧ Prom.lookupLabel [] "a" = none
    ∧ Prom.specSelectorMatches [("a", "")] [] = false := by
  decide

/-- C2 (amended): label-selector matching is exact-value, all-keys-required,
extra-series-labels-ignored — for `prometheusTargets.Expect` whenever no
selector value is the empty string (an empty-string selector value also
matches a series lacking the key), and for `findMetricsWithLabels` on
duplicate-free label maps unconditionally; an empty selector matches every
series. -/
theorem c2_selector_matching_amended :
    (∀ sel ls : List (String × String), (∀ p ∈ sel, p.2 ≠ "") →
      (Prom.expectLabelsMatch sel ls = true ↔ ∀ p ∈ sel, Prom.lookupLabel ls p.1 = some p.2))
    ∧ (∀ sel ls : List (String × String),
        (sel.map Prod.fst).Nodup → (ls.map Prod.fst).Nodup →
      (Prom.metricMatches sel ls = true ↔ ∀ p ∈ sel, Prom.lookupLabel ls p.1 = some p.2))
    ∧ (∀ ls : List (String × String),
        Prom.expectLabelsMatch [] ls = true ∧ Prom.metricMatches [] ls = true) :=
  ⟨fun _ _ h => Prom.expectLabelsMatch_iff h,
   fun _ _ h1 h2 => Prom.metricMatches_iff h1 h2,
   fun ls => ⟨by simp [Prom.expectLabelsMatch],
     by simp [Prom.metricMatches, Prom.matchedNames_nil_sel]⟩⟩

/-- Witness for C2: a concrete selector with non-empty value, a series
carrying an extra label, evaluated through both matching functions. -/
theorem c2_selector_matching_witness :
    (Prom.expectLabelsMatch [("job", "api")] [("job", "api"), ("pod", "x")] = true
      ↔ ∀ p ∈ [("job", "api")],
          Prom.lookupLabel [("job", "api"), ("pod", "x")] p.1 = some p.2)
    ∧ (Prom.metricMatches [("job", "api")] [("job", "api"), ("pod", "x")] = true
      ↔ ∀ p ∈ [("job", "api")],
          Prom.lookupLabel [("job", "api"), ("pod", "x")] p.1 = some p.2) :=
  ⟨c2_selector_matching_amended.1 _ _ (by decide),
   c2_selector_matching_amended.2.1 _ _ (by decide) (by decide)⟩

/-- C3: first-match-wins classification — if every condition before `c` in
list order fails to match the series and `c` matches it, `Matches` selects
`c`, and the firing classification records the violation decorated with
`c`'s explanatory text. -/
theorem c3_first_match_wins (pre post : List Prom.MetricCondition)
    (c : Prom.MetricCondition) (s : Prom.Series) (st : Prom.AlertState)
    (hpre : ∀ c' ∈ pre, Prom.specSelectorMatches c'.Selector s.Metric = false)
    (hc : Prom.specSelectorMatches c.Selector s.Metric = true) :
    Prom.MetricConditions.Matches (pre ++ c :: post) s = some c
    ∧ Prom.stepFiring (pre ++ c :: post) st s =
        { st with knownViolations :=
            insert (Prom.firingViolation s ++ " (open bug: " ++ c.Text ++ ")") st.knownViolations } := by
  have hm : Prom.MetricConditions.Matches (pre ++ c :: post) s = some c := by
    unfold Prom.MetricConditions.Matches
    rw [List.find?_append]
    have h1 : pre.find? (fun c => Prom.specSelectorMatches c.Selector s.Metric) = none := by
      rw [List.find?_eq_none]
      intro x hx
      simp [hpre x hx]
    rw [h1]
    simp only [Option.none_or]
    exact List.find?_cons_of_pos _ hc
  exact ⟨hm, Prom.stepFiring_known hm st⟩

/-- Witness for C3: the second condition in a two-element list is the first
match for a series the first condition rejects. -/
theorem c3_first_match_wins_witness :
    Prom.MetricConditions.Matches
        [⟨[("alertname", "X")], "t1"⟩, ⟨[("alertname", "Y")], "t2"⟩]
        ⟨[("alertname", "Y")], "1"⟩
      = some ⟨[("alertname", "Y")], "t2"⟩ :=
  (c3_first_match_wins [⟨[("alertname", "X")], "t1"⟩] []
    ⟨[("alertname", "Y")], "t2"⟩ ⟨[("alertname", "Y")], "1"⟩ Prom.initState
    (by decide) (by decide)).1

/-- C4: exhaustive and exclusive classification — for every series the
firing-loop body updates exactly one of the known/unexpected sets and the
pending-loop body exactly one of the debug/known/flaky sets (leaving every
other accumulator untouched), with the case fully determined by the
condition matching, so no series is dropped or double-classified. -/
theorem c4_classification_partition (fb ab pb : List Prom.MetricCondition)
    (s : Prom.Series) (st : Prom.AlertState) :
    ((∃ c, Prom.MetricConditions.Matches fb s = some c
        ∧ Prom.stepFiring fb st s =
          { st with knownViolations := insert (Prom.firingViolation s ++ " (open bug: " ++ c.Text ++ ")") st.knownViolations })
      ∨ (Prom.MetricConditions.Matches fb s = none
        ∧ Prom.stepFiring fb st s =
          { st with unexpectedViolations := insert (Prom.firingViolation s) st.unexpectedViolations }))
    ∧ ((∃ c, Prom.MetricConditions.Matches ab s = some c
        ∧ Prom.stepPending ab pb st s =
          { st with debug := insert (Prom.pendingViolation s ++ " (allowed: " ++ c.Text ++ ")") st.debug })
      ∨ (Prom.MetricConditions.Matches ab s = none
        ∧ ∃ c, Prom.MetricConditions.Matches pb s = some c
        ∧ Prom.stepPending ab pb st s =
          { st with knownViolations := insert (Prom.pendingViolation s ++ " (open bug: " ++ c.Text ++ ")") st.knownViolations })
      ∨ (Prom.MetricConditions.Matches ab s = none
        ∧ Prom.MetricConditions.Matches pb s = none
        ∧ Prom.stepPending ab pb st s =
          { st with unexpectedViolationsAsFlakes := insert (Prom.pendingViolation s) st.unexpectedViolationsAsFlakes })) := by
  constructor
  · cases h : Prom.MetricConditions.Matches fb s with
    | some c => exact Or.inl ⟨c, rfl, Prom.stepFiring_known h st⟩
    | none => exact Or.inr ⟨rfl, Prom.stepFiring_unexpected h st⟩
  · cases h1 : Prom.MetricConditions.Matches ab s with
    | some c => exact Or.inl ⟨c, rfl, Prom.stepPending_debug h1 st⟩
    | none =>
      cases h2 : Prom.MetricConditions.Matches pb s with
      | some c => exact Or.inr (Or.inl ⟨rfl, c, rfl, Prom.stepPending_known h1 h2 st⟩)
      | none => exact Or.inr (Or.inr ⟨rfl, rfl, Prom.stepPending_flake h1 h2 st⟩)

/-- C5: the run hard-fails if and only if the unexpected set is non-empty
after evaluation; known or flaky violations alone produce only the
non-blocking flake signal. -/
theorem c5_verdict_fail_iff (st : Prom.AlertState) :
    ((∃ m, Prom.verdict st = .fail m) ↔ st.unexpectedViolations ≠ ∅)
    ∧ (st.unexpectedViolations = ∅ →
        (st.knownViolations ≠ ∅ ∨ st.unexpectedViolationsAsFlakes ≠ ∅) →
        ∃ m, Prom.verdict st = .flake m) := by
  constructor
  · constructor
    · rintro ⟨m, hm⟩
      intro hemp
      unfold Prom.verdict at hm
      rw [if_neg (by simp [hemp])] at hm
      by_cases hu : (∅ ∪ st.knownViolations ∪ st.unexpectedViolations ∪ st.unexpectedViolationsAsFlakes) ≠ (∅ : Finset String)
      · rw [if_pos hu] at hm
        exact Prom.Verdict.noConfusion hm
      · rw [if_neg hu] at hm
        exact Prom.Verdict.noConfusion hm
    · intro h
      refine ⟨"Unexpected alerts fired or pending after the test run:\n\n" ++ String.intercalate "\n" (Prom.setList st.unexpectedViolations), ?_⟩
      unfold Prom.verdict
      rw [if_pos h]
  · intro h1 h2
    have hcond : (∅ ∪ st.knownViolations ∪ st.unexpectedViolations ∪ st.unexpectedViolationsAsFlakes) ≠ (∅ : Finset String) := by
      intro hu
      rcases h2 with hk | hf
      · apply hk
        have h3 := Finset.union_eq_empty.mp hu
        have h4 := Finset.union_eq_empty.mp h3.1
        exact (Finset.union_eq_empty.mp h4.1).2
      · exact hf (Finset.union_eq_empty.mp hu).2
    refine ⟨"Unexpected alert behavior during test:\n\n" ++ String.intercalate "\n" (Prom.setList (∅ ∪ st.knownViolations ∪ st.unexpectedViolations ∪ st.unexpectedViolationsAsFlakes)), ?_⟩
    unfold Prom.verdict
    rw [if_neg (by simp [h1]), if_pos hcond]

/-- Witness for C5: a lone unexpected violation hard-fails; a lone known
violation only flakes. -/
theorem c5_verdict_fail_iff_witness :
    (∃ m, Prom.verdict ⟨∅, {"v"}, ∅, ∅⟩ = .fail m)
    ∧ (∃ m, Prom.verdict ⟨{"k"}, ∅, ∅, ∅⟩ = .flake m) :=
  ⟨(c5_verdict_fail_iff ⟨∅, {"v"}, ∅, ∅⟩).1.mpr (by decide),
   (c5_verdict_fail_iff ⟨{"k"}, ∅, ∅, ∅⟩).2 (by decide) (Or.inl (by decide))⟩

/-- C6: allow-listed pending alerts — a pending series matching the
allow-list is recorded only in the informational debug set, every other
accumulator is untouched, and a pending query consisting solely of
allow-listed series leaves the run passing. -/
theorem c6_allowed_pending (s : Prom.Series) (st : Prom.AlertState)
    (c : Prom.MetricCondition)
    (h : Prom.MetricConditions.Matches Prom.allowedPendingAlerts s = some c) :
    (Prom.stepPending Prom.allowedPendingAlerts Prom.pendingAlertsWithBugs st s =
      { st with debug := insert (Prom.pendingViolation s ++ " (allowed: " ++ c.Text ++ ")") st.debug })
    ∧ (Prom.stepPending Prom.allowedPendingAlerts Prom.pendingAlertsWithBugs st s).knownViolations = st.knownViolations
    ∧ (Prom.stepPending Prom.allowedPendingAlerts Prom.pendingAlertsWithBugs st s).unexpectedViolations = st.unexpectedViolations
    ∧ (Prom.stepPending Prom.allowedPendingAlerts Prom.pendingAlertsWithBugs st s).unexpectedViolationsAsFlakes = st.unexpectedViolationsAsFlakes
    ∧ (∀ series : List Prom.Series,
        (∀ s' ∈ series, (Prom.MetricConditions.Matches Prom.allowedPendingAlerts s').isSome) →
        Prom.verdict (Prom.evalPending Prom.allowedPendingAlerts Prom.pendingAlertsWithBugs series Prom.initState) = .pass) := by
  have hstep := @Prom.stepPending_debug Prom.allowedPendingAlerts Prom.pendingAlertsWithBugs s c h st
  refine ⟨hstep, by rw [hstep], by rw [hstep], by rw [hstep], ?_⟩
  intro series hall
  have h3 := Prom.evalPending_allowed_only_debug Prom.allowedPendingAlerts
    Prom.pendingAlertsWithBugs series Prom.initState hall
  have hu : (Prom.evalPending Prom.allowedPendingAlerts Prom.pendingAlertsWithBugs series Prom.initState).unexpectedViolations = ∅ := by
    rw [h3.2.1]; rfl
  have hk : (Prom.evalPending Prom.allowedPendingAlerts Prom.pendingAlertsWithBugs series Prom.initState).knownViolations = ∅ := by
    rw [h3.1]; rfl
  have hf : (Prom.evalPending Prom.allowedPendingAlerts Prom.pendingAlertsWithBugs series Prom.initState).unexpectedViolationsAsFlakes = ∅ := by
    rw [h3.2.2]; rfl
  unfold Prom.verdict
  rw [if_neg (by simp [hu]), if_neg (by simp [hu, hk, hf])]

/-- Witness for C6: a concrete pending `HighOverallControlPlaneCPU` series
is allow-listed, lands only in the debug set, and the run passes. -/
theorem c6_allowed_pending_witness :
    (Prom.stepPending Prom.allowedPendingAlerts Prom.pendingAlertsWithBugs Prom.initState
        ⟨[("alertname", "HighOverallControlPlaneCPU"), ("alertstate", "pending")], "30"⟩ =
      { Prom.initState with debug := insert (Prom.pendingViolation ⟨[("alertname", "HighOverallControlPlaneCPU"), ("alertstate", "pending")], "30"⟩ ++ " (allowed: " ++ "high CPU utilization during e2e runs is normal" ++ ")") Prom.initState.debug })
    ∧ Prom.verdict (Prom.evalPending Prom.allowedPendingAlerts Prom.pendingAlertsWithBugs
        [⟨[("alertname", "HighOverallControlPlaneCPU"), ("alertstate", "pending")], "30"⟩]
        Prom.initState) = .pass := by
  have h := c6_allowed_pending
    ⟨[("alertname", "HighOverallControlPlaneCPU"), ("alertstate", "pending")], "30"⟩
    Prom.initState
    ⟨[("alertname", "HighOverallControlPlaneCPU")], "high CPU utilization during e2e runs is normal"⟩
    (by decide)
  exact ⟨h.1, h.2.2.2.2 _ (by decide)⟩

/-- C7: collect-before-raise — every series of a firing query contributes
its classified violation to the accumulated state (no fail-fast on the
first mismatch), and a non-empty unexpected set fails with the
newline-joined enumeration of all collected unexpected descriptions. -/
theorem c7_collect_before_raise (fb : List Prom.MetricCondition)
    (series : List Prom.Series) (st : Prom.AlertState) :
    (∀ s ∈ series, Prom.MetricConditions.Matches fb s = none →
      Prom.firingViolation s ∈ (Prom.evalFiring fb series st).unexpectedViolations)
    ∧ (∀ s ∈ series, ∀ c, Prom.MetricConditions.Matches fb s = some c →
      Prom.firingViolation s ++ " (open bug: " ++ c.Text ++ ")" ∈ (Prom.evalFiring fb series st).knownViolations)
    ∧ (∀ st' : Prom.AlertState, st'.unexpectedViolations ≠ ∅ →
      Prom.verdict st' = .fail ("Unexpected alerts fired or pending after the test run:\n\n" ++ String.intercalate "\n" (Prom.setList st'.unexpectedViolations))) := by
  refine ⟨?_, ?_, ?_⟩
  · intro s hs hm
    exact (Prom.evalFiring_collects fb series st s hs).1 hm
  · intro s hs c hm
    exact (Prom.evalFiring_collects fb series st s hs).2 c hm
  · intro st' h
    unfold Prom.verdict
    rw [if_pos h]

/-- Witness for C7: two mismatching series in one query both end up in the
unexpected set, and a state with one unexpected violation fails with the
enumerated message. -/
theorem c7_collect_before_raise_witness :
    Prom.firingViolation ⟨[("alertname", "A")], "5"⟩
      ∈ (Prom.evalFiring [] [⟨[("alertname", "A")], "5"⟩, ⟨[("alertname", "B")], "7"⟩] Prom.initState).unexpectedViolations
    ∧ Prom.firingViolation ⟨[("alertname", "B")], "7"⟩
      ∈ (Prom.evalFiring [] [⟨[("alertname", "A")], "5"⟩, ⟨[("alertname", "B")], "7"⟩] Prom.initState).unexpectedViolations
    ∧ Prom.verdict ⟨∅, {"x"}, ∅, ∅⟩ =
        .fail ("Unexpected alerts fired or pending after the test run:\n\n" ++ String.intercalate "\n" (Prom.setList {"x"})) :=
  ⟨(c7_collect_before_raise [] [⟨[("alertname", "A")], "5"⟩, ⟨[("alertname", "B")], "7"⟩] Prom.initState).1
      ⟨[("alertname", "A")], "5"⟩ (by decide) rfl,
   (c7_collect_before_raise [] [⟨[("alertname", "A")], "5"⟩, ⟨[("alertname", "B")], "7"⟩] Prom.initState).1
      ⟨[("alertname", "B")], "7"⟩ (by decide) rfl,
   (c7_collect_before_raise [] [] Prom.initState).2.2 ⟨∅, {"x"}, ∅, ∅⟩ (by decide)⟩

/-- C8: deduplication — re-classifying the same series is a no-op, two
series with identical violation text collapse to a single recorded entry,
and the sorted report lists a violation description exactly once. -/
theorem c8_dedup (fb : List Prom.MetricCondition) (st : Prom.AlertState)
    (s1 s2 : Prom.Series) (v : String) :
    (Prom.stepFiring fb (Prom.stepFiring fb st s1) s1 = Prom.stepFiring fb st s1)
    ∧ (Prom.firingViolation s1 = Prom.firingViolation s2 →
        Prom.MetricConditions.Matches fb s1 = none →
        Prom.MetricConditions.Matches fb s2 = none →
        Prom.evalFiring fb [s1, s2] st = Prom.evalFiring fb [s1] st)
    ∧ (v ∈ (Prom.evalFiring fb [s1, s2] st).unexpectedViolations →
        (Prom.setList ((Prom.evalFiring fb [s1, s2] st).unexpectedViolations)).count v = 1) := by
  refine ⟨?_, ?_, ?_⟩
  · cases h : Prom.MetricConditions.Matches fb s1 with
    | some c => simp [Prom.stepFiring_known h]
    | none => simp [Prom.stepFiring_unexpected h]
  · intro hv h1 h2
    simp [Prom.evalFiring, Prom.stepFiring_unexpected h1, Prom.stepFiring_unexpected h2, ← hv]
  · intro hv
    unfold Prom.setList
    exact List.count_eq_one_of_mem (Finset.sort_nodup _ _) ((Finset.mem_sort _).mpr hv)

/-- Witness for C8: the same unmatched series twice yields the same state
as once, and its description appears exactly once in the sorted report. -/
theorem c8_dedup_witness :
    Prom.evalFiring [] [⟨[("alertname", "A")], "5"⟩, ⟨[("alertname", "A")], "5"⟩] Prom.initState
      = Prom.evalFiring [] [⟨[("alertname", "A")], "5"⟩] Prom.initState
    ∧ (Prom.setList ((Prom.evalFiring [] [⟨[("alertname", "A")], "5"⟩, ⟨[("alertname", "A")], "5"⟩] Prom.initState).unexpectedViolations)).count (Prom.firingViolation ⟨[("alertname", "A")], "5"⟩) = 1 :=
  ⟨(c8_dedup [] Prom.initState ⟨[("alertname", "A")], "5"⟩ ⟨[("alertname", "A")], "5"⟩ "").2.1 rfl rfl rfl,
   (c8_dedup [] Prom.initState ⟨[("alertname", "A")], "5"⟩ ⟨[("alertname", "A")], "5"⟩ (Prom.firingViolation ⟨[("alertname", "A")], "5"⟩)).2.2 (by decide)⟩

/-- C9: transport failures are not property violations — a failed query
aborts the evaluation at that point and leaves every classification set
exactly as it was before that query. -/
theorem c9_transport_failure (e : String) (xs : List Nat) (fs : List Prom.Series)
    (f p : Except String (List Prom.Series)) :
    (Prom.evalAlertsTest (.error e) f p = .aborted e Prom.initState)
    ∧ (Prom.evalAlertsTest (.ok xs) (.error e) p = .aborted e (Prom.evalWatchdog xs Prom.initState))
    ∧ (Prom.evalAlertsTest (.ok xs) (.ok fs) (.error e)
        = .aborted e (Prom.evalFiring Prom.firingAlertsWithBugs fs (Prom.evalWatchdog xs Prom.initState))) :=
  ⟨rfl, rfl, rfl⟩

/-- C10: the namespace-scoped lister `Get` returns exactly one of three
outcomes — the indexer's lookup error with no object, NotFound with no
object when nothing is stored under `namespace + "/" + name`, or the stored
object with no error — and never both a nil object and a nil error. -/
theorem c10_ns_lister_get {α : Type} (ix : Lister.Indexer α) (ns name : String) :
    ((∃ e, ix.keyErr (ns ++ "/" ++ name) = some e
        ∧ Lister.nsListerGet ix ns name = (none, some (Lister.GetError.lookup e)))
      ∨ (ix.keyErr (ns ++ "/" ++ name) = none ∧ ix.store (ns ++ "/" ++ name) = none
        ∧ Lister.nsListerGet ix ns name = (none, some (Lister.GetError.notFound name)))
      ∨ (∃ o, ix.keyErr (ns ++ "/" ++ name) = none ∧ ix.store (ns ++ "/" ++ name) = some o
        ∧ Lister.nsListerGet ix ns name = (some o, none)))
    ∧ ¬((Lister.nsListerGet ix ns name).1 = none ∧ (Lister.nsListerGet ix ns name).2 = none) := by
  have htri :
      (∃ e, ix.keyErr (ns ++ "/" ++ name) = some e
        ∧ Lister.nsListerGet ix ns name = (none, some (Lister.GetError.lookup e)))
      ∨ (ix.keyErr (ns ++ "/" ++ name) = none ∧ ix.store (ns ++ "/" ++ name) = none
        ∧ Lister.nsListerGet ix ns name = (none, some (Lister.GetError.notFound name)))
      ∨ (∃ o, ix.keyErr (ns ++ "/" ++ name) = none ∧ ix.store (ns ++ "/" ++ name) = some o
        ∧ Lister.nsListerGet ix ns name = (some o, none)) := by
    cases he : ix.keyErr (ns ++ "/" ++ name) with
    | some e =>
      exact Or.inl ⟨e, rfl, by simp [Lister.nsListerGet, Lister.Indexer.GetByKey, he]⟩
    | none =>
      cases hs : ix.store (ns ++ "/" ++ name) with
      | none =>
        exact Or.inr (Or.inl ⟨rfl, rfl, by simp [Lister.nsListerGet, Lister.Indexer.GetByKey, he, hs]⟩)
      | some o =>
        exact Or.inr (Or.inr ⟨o, rfl, rfl, by simp [Lister.nsListerGet, Lister.Indexer.GetByKey, he, hs]⟩)
  refine ⟨htri, ?_⟩
  rintro ⟨h1, h2⟩
  rcases htri with ⟨e, _, hg⟩ | ⟨_, _, hg⟩ | ⟨o, _, _, hg⟩ <;> rw [hg] at h1 h2 <;> simp_all

/-- Witness for C10: a concrete one-entry indexer never yields both a nil
object and a nil error. -/
theorem c10_ns_lister_get_witness :
    ¬(((Lister.nsListerGet (⟨fun k => if k = "ns/a" then some (1 : Nat) else none, fun _ => none⟩ : Lister.Indexer Nat) "ns" "a").1 = none)
      ∧ ((Lister.nsListerGet (⟨fun k => if k = "ns/a" then some (1 : Nat) else none, fun _ => none⟩ : Lister.Indexer Nat) "ns" "a").2 = none)) :=
  (c10_ns_lister_get (⟨fun k => if k = "ns/a" then some (1 : Nat) else none, fun _ => none⟩ : Lister.Indexer Nat) "ns" "a").2
